import Mathlib

/-!
Verification of the natural-language specification of the ai-agent-api
repository against a shallow embedding of its TypeScript source.

The embedding covers:
- the query execution layer (`AIAgentService.executeQuery`): SQL guardrails,
  document-store guardrails, row caps, and write sanitization;
- the schema-registry key derivation (`SchemaRegistryService.normalizeUrl`
  and the `dbKey` construction);
- the WebSocket `join-session` handler and `createSession`;
- the plan executor (`AIAgentService.executePlannedSteps`);
- the greeting short-circuit of `AIAgentService.processQuery`;
- the memory service's skill-level progression
  (`AIMemoryService.recordQuery` / `updateUserPreferences`).

JavaScript values flowing through these functions are modelled by the
`Value` type below; JavaScript truthiness, `Object.keys`, member access
and string/regex operations are modelled explicitly.  The external
databases (MongoDB / SQL engines) are not repository code; they are
modelled by a `DbEnv` oracle plus a small executable semantics for
aggregation pipelines (a `$limit: n` stage keeps at most `n` documents,
a `$match` stage filters), which is all the claims rely on.
-/

/-- A JSON-ish JavaScript runtime value (the `any` values the service passes
around: filters, documents, pipeline stages, rows). -/
inductive Value where
  | null : Value
  | bool (b : Bool) : Value
  | num (n : Int) : Value
  | str (s : String) : Value
  | arr (elems : List Value) : Value
  | obj (entries : List (String × Value)) : Value

mutual

/-- Structural boolean equality on `Value` (used by the external-database
matcher model; JS object keys are unique, so entry-list equality is fine). -/
def valueBeq : Value → Value → Bool
  | Value.null, Value.null => true
  | Value.bool a, Value.bool b => a == b
  | Value.num a, Value.num b => a == b
  | Value.str a, Value.str b => a == b
  | Value.arr a, Value.arr b => valueListBeq a b
  | Value.obj a, Value.obj b => valueEntriesBeq a b
  | _, _ => false

def valueListBeq : List Value → List Value → Bool
  | [], [] => true
  | a :: as_, b :: bs => valueBeq a b && valueListBeq as_ bs
  | _, _ => false

def valueEntriesBeq : List (String × Value) → List (String × Value) → Bool
  | [], [] => true
  | (ka, va) :: as_, (kb, vb) :: bs => ka == kb && valueBeq va vb && valueEntriesBeq as_ bs
  | _, _ => false

end

/-- JavaScript truthiness of a `Value` (`undefined` is modelled as an absent
`Option`, handled at each use site). -/
def jsTruthy : Value → Bool
  | Value.null => false
  | Value.bool b => b
  | Value.num n => n != 0
  | Value.str s => s != ""
  | Value.arr _ => true
  | Value.obj _ => true

/-- JavaScript member access `v[k]` for string keys: defined on objects,
`undefined` (here `none`) otherwise.  JS object keys are unique, so the
first matching entry is the binding. -/
def objGet : Value → String → Option Value
  | Value.obj kvs, k => (kvs.find? (fun p => p.1 == k)).map (·.2)
  | _, _ => none

/-- `Object.keys(v).length`: number of own enumerable keys — entry count for
objects, element count for arrays, `0` for primitives. -/
def keysLength : Value → Nat
  | Value.obj kvs => kvs.length
  | Value.arr vs => vs.length
  | _ => 0

/-- `typeof v === 'object'` (true for objects, arrays and `null`). -/
def isObjectTypeof : Value → Bool
  | Value.obj _ => true
  | Value.arr _ => true
  | Value.null => true
  | _ => false

/-- The truthiness of an optional member access (`undefined` is falsy). -/
def optTruthy : Option Value → Bool
  | some v => jsTruthy v
  | none => false

/-- JS `a || dflt` for an optional value: the value if present and truthy,
otherwise the default. -/
def jsOrValue : Option Value → Value → Value
  | some v, dflt => if jsTruthy v then v else dflt
  | none, dflt => dflt

/-! ### Character and regex-fragment utilities

The SQL guardrails and the greeting detector use JavaScript regexes over
ASCII text; they are modelled as explicit functions on `List Char`. -/

/-- Regex word character `\w` = `[A-Za-z0-9_]`. -/
def isWordChar (c : Char) : Bool := c.isAlphanum || c == '_'

/-- Regex whitespace `\s` (ASCII part, which is all the service's inputs use). -/
def isJsSpace (c : Char) : Bool :=
  c == ' ' || c == '\t' || c == '\n' || c == '\r' || c == '\x0b' || c == '\x0c'

/-- `String.prototype.toLowerCase` (ASCII). -/
def toLowerList (cs : List Char) : List Char := cs.map Char.toLower

/-- If `w` heads the list, the remainder after it. -/
def dropPfx : List Char → List Char → Option (List Char)
  | [], s => some s
  | _ :: _, [] => none
  | c :: w, d :: s => if c == d then dropPfx w s else none

/-- A word boundary `\b` holds after a word ending here: end of input or a
non-word character. -/
def boundaryAt : List Char → Bool
  | [] => true
  | c :: _ => !isWordChar c

/-- The word `w` occurs at the head of `s`, followed by a word boundary. -/
def wordHere (w s : List Char) : Bool :=
  match dropPfx w s with
  | some rest => boundaryAt rest
  | none => false

/-- Helper of `containsWord`: `prevB` records whether the previous character
was a word boundary (non-word character or start of input). -/
def containsWordGo (w : List Char) (prevB : Bool) : List Char → Bool
  | [] => false
  | c :: cs => (prevB && wordHere w (c :: cs)) || containsWordGo w (!isWordChar c) cs

/-- Regex `\bw\b` tested anywhere in `s` (JS `RegExp.test`). -/
def containsWord (w : String) (s : List Char) : Bool := containsWordGo w.data true s

/-- Regex `^\s*w\b` tested against `s`. -/
def headWordAfterWS (w : String) (s : List Char) : Bool :=
  wordHere w.data (s.dropWhile isJsSpace)

/-- Plain substring occurrence (JS `RegExp.test` for a literal pattern). -/
def hasSubstr (n : String) : List Char → Bool
  | [] => n.data.isEmpty
  | c :: cs => (dropPfx n.data (c :: cs)).isSome || hasSubstr n cs

/-- JS `text.replace(/;\s*$/, '')`: drop one trailing semicolon together with
any whitespace after it. -/
def stripTrailingSemi (cs : List Char) : List Char :=
  match cs.reverse.dropWhile isJsSpace with
  | c :: rest => if c == ';' then rest.reverse else cs
  | [] => cs

/-- JS `/\$\d+/.test(s)`: a dollar sign immediately followed by a digit. -/
def hasDollarDigit : List Char → Bool
  | [] => false
  | [_] => false
  | a :: b :: rest => (a == '$' && b.isDigit) || hasDollarDigit (b :: rest)

/-- Number of (non-overlapping, maximal) matches of `/\$\d+/g` in `s`. -/
def countDollarDigit : List Char → Nat
  | [] => 0
  | [_] => 0
  | a :: b :: rest =>
      (if a == '$' && b.isDigit then 1 else 0) + countDollarDigit (b :: rest)

/-- JS `s.replace(/\$\d+/g, '?')`, fuelled by the input length (each step
consumes at least one character, so `cs.length` fuel is always enough). -/
def replDollarAux : Nat → List Char → List Char
  | 0, _ => []
  | _ + 1, [] => []
  | f + 1, '$' :: c :: rest =>
      if c.isDigit then '?' :: replDollarAux f ((c :: rest).dropWhile Char.isDigit)
      else '$' :: replDollarAux f (c :: rest)
  | f + 1, c :: rest => c :: replDollarAux f rest

/-- JS `s.replace(/\$\d+/g, '?')`. -/
def replDollar (cs : List Char) : List Char := replDollarAux cs.length cs

/-! ### The document-store guardrail `containsDangerousMongo`

Embeds the inner function of `AIAgentService.executeQuery`:
arrays recurse element-wise; objects are dangerous when some key is
`$where` or `$function`, or some member of `typeof` object recursively is. -/

mutual

def containsDangerousMongo : Value → Bool
  | Value.obj kvs => cdmEntries kvs
  | Value.arr vs => cdmList vs
  | _ => false

def cdmEntries : List (String × Value) → Bool
  | [] => false
  | (k, v) :: rest =>
      k == "$where" || k == "$function" ||
        (isObjectTypeof v && containsDangerousMongo v) || cdmEntries rest

def cdmList : List Value → Bool
  | [] => false
  | v :: rest => containsDangerousMongo v || cdmList rest

end

/-! ### The query object, effects, and environment -/

/-- The union of `MongoQueryObject` and `SQLQueryObject` (the source
discriminates on `operation === 'sql'`); optional fields are `Option`,
matching `undefined`-able TS fields. -/
structure Query where
  operation : String
  collection : String := ""
  filter : Option Value := none
  projection : Option Value := none
  sort : Option Value := none
  limit : Option Int := none
  document : Option Value := none
  update : Option Value := none
  pipeline : Option Value := none
  sql : Option String := none
  parameters : List Value := []

/-- The driver type of the pooled connection handed to `executeQuery`. -/
inductive ConnType where
  | postgres : ConnType
  | mysql : ConnType
  | mongodb : ConnType

/-- One observable database call issued by `executeQuery`.  A query rejected
by a guardrail produces an error and an empty effect list: nothing reached
the database. -/
inductive DbEffect where
  | sqlExec (text : String) (params : List Value)
  | findQ (coll : String) (filter : Value) (limit : Nat)
  | findOneQ (coll : String) (filter : Value)
  | countQ (coll : String) (filter : Value)
  | aggQ (coll : String) (stages : List Value)
  | insertQ (coll : String) (doc : Value)
  | updateQ (coll : String) (filter : Value) (upd : Value)
  | deleteQ (coll : String) (filter : Value)

/-- The external databases: per-collection documents for the document store,
and the row set the relational engine would return for the (single) accepted
statement.  Not repository code — an oracle for the environment. -/
structure DbEnv where
  colls : List (String × List Value)
  sqlRows : List Value

def DbEnv.docsOf (env : DbEnv) (c : String) : List Value :=
  ((env.colls.find? (fun p => p.1 == c)).map (·.2)).getD []

/-- External MongoDB equality matcher model: a filter object matches a
document when every filter field equals the document's field.  (Operator
semantics are irrelevant to the claims, which only count rows.) -/
def dbMatches (f d : Value) : Bool :=
  match f with
  | Value.obj kvs =>
      kvs.all (fun p =>
        match objGet d p.1 with
        | some v => valueBeq p.2 v
        | none => false)
  | _ => true

/-- Truthiness of `st[k]` for a pipeline stage, as in `st.$limit`,
`st.$out || st.$merge`. -/
def stageTruthyKey (st : Value) (k : String) : Bool := optTruthy (objGet st k)

/-- External MongoDB semantics of one aggregation stage: `$limit: n` keeps
the first `n` documents, `$match: f` filters, anything else is modelled as
row-count-preserving. -/
def runAggStage (docs : List Value) (st : Value) : List Value :=
  match objGet st "$limit" with
  | some (Value.num n) => docs.take n.toNat
  | _ =>
    match objGet st "$match" with
    | some f => docs.filter (fun d => dbMatches f d)
    | none => docs

/-- External MongoDB semantics of an aggregation pipeline. -/
def runAggPipeline (docs : List Value) (stages : List Value) : List Value :=
  stages.foldl runAggStage docs

/-- JS `limit || DEFAULT_ROW_LIMIT` (`0` and `undefined` both fall back). -/
def jsOrInt : Option Int → Int → Int
  | some n, dflt => if n == 0 then dflt else n
  | none, dflt => dflt

/-- The limit a `find` is executed with:
`Math.min(limit || DEFAULT_ROW_LIMIT, DEFAULT_ROW_LIMIT)` (as the
non-negative count of rows the cursor may return). -/
def effFindLimit (D : Nat) (limit : Option Int) : Nat :=
  (min (jsOrInt limit (D : Int)) (D : Int)).toNat

/-- `delete document.password` guarded by `'password' in document`
(top-level only), from the `insertOne` branch. -/
def stripPassword : Value → Value
  | Value.obj kvs =>
      if kvs.any (fun p => p.1 == "password") then
        Value.obj (kvs.filter (fun p => !(p.1 == "password")))
      else Value.obj kvs
  | v => v

/-- `AIAgentService.executeQuery` without the final catch-wrapper: the pair
of database calls issued and the outcome.  `D` is the configured
`DEFAULT_ROW_LIMIT`. -/
def executeQueryCore (D : Nat) (q : Query) (conn : ConnType) (env : DbEnv) :
    List DbEffect × Except String Value :=
  if q.operation == "sql" then
    let sqlText := (q.sql.getD "").data
    let lowerSql := toLowerList sqlText
    if containsWord "drop" lowerSql || containsWord "truncate" lowerSql ||
        containsWord "alter" lowerSql then
      ([], Except.error "Dangerous SQL operation blocked")
    else if headWordAfterWS "delete" lowerSql && !containsWord "where" lowerSql then
      ([], Except.error "DELETE without WHERE is blocked")
    else if headWordAfterWS "update" lowerSql && !containsWord "where" lowerSql then
      ([], Except.error "UPDATE without WHERE is blocked")
    else if hasSubstr "--" sqlText || hasSubstr "/*" sqlText then
      ([], Except.error "SQL comments are blocked")
    else if sqlText.count ';' > 1 then
      ([], Except.error "Multiple SQL statements are blocked")
    else
      let finalSql := stripTrailingSemi sqlText
      match conn with
      | ConnType.postgres =>
          ([DbEffect.sqlExec (String.mk finalSql) q.parameters],
           Except.ok (Value.arr env.sqlRows))
      | ConnType.mysql =>
          if hasDollarDigit finalSql then
            if q.parameters.length != countDollarDigit finalSql then
              ([], Except.error "Parameter count mismatch after normalization")
            else
              ([DbEffect.sqlExec (String.mk (replDollar finalSql)) q.parameters],
               Except.ok (Value.arr env.sqlRows))
          else
            ([DbEffect.sqlExec (String.mk finalSql) q.parameters],
             Except.ok (Value.arr env.sqlRows))
      | ConnType.mongodb => ([], Except.ok Value.null)
  else
    let effFilter := q.filter.getD (Value.obj [])
    if containsDangerousMongo effFilter then
      ([], Except.error "Dangerous Mongo operator in filter is blocked")
    else
      let docs := env.docsOf q.collection
      if q.operation == "find" then
        let effLimit := effFindLimit D q.limit
        let rows := (docs.filter (dbMatches effFilter)).take effLimit
        ([DbEffect.findQ q.collection effFilter effLimit],
         Except.ok (Value.arr rows))
      else if q.operation == "findOne" then
        ([DbEffect.findOneQ q.collection effFilter],
         Except.ok (((docs.filter (dbMatches effFilter)).head?).getD Value.null))
      else if q.operation == "count" then
        ([DbEffect.countQ q.collection effFilter],
         Except.ok (Value.num ((docs.filter (dbMatches effFilter)).length : Int)))
      else if q.operation == "aggregate" then
        let pipelineV := jsOrValue q.pipeline
          (jsOrValue (objGet effFilter "pipeline")
            (Value.arr [Value.obj [("$match", effFilter)]]))
        match pipelineV with
        | Value.arr stages =>
            if stages.any (fun st =>
                stageTruthyKey st "$out" || stageTruthyKey st "$merge") then
              ([], Except.error "Dangerous Mongo aggregation stage blocked")
            else
              let limited :=
                if stages.any (fun st => stageTruthyKey st "$limit") then stages
                else stages ++ [Value.obj [("$limit", Value.num (D : Int))]]
              ([DbEffect.aggQ q.collection limited],
               Except.ok (Value.arr (runAggPipeline docs limited)))
        | _ => ([], Except.error "aggregate pipeline must be an array")
      else if q.operation == "insertOne" then
        match q.document with
        | some d =>
            if isObjectTypeof d && jsTruthy d then
              let inserted := stripPassword d
              ([DbEffect.insertQ q.collection inserted], Except.ok inserted)
            else ([], Except.error "insertOne requires a document")
        | none => ([], Except.error "insertOne requires a document")
      else if q.operation == "updateOne" then
        if !jsTruthy effFilter || keysLength effFilter == 0 then
          ([], Except.error "updateOne requires a specific filter")
        else
          match q.update with
          | some u =>
              if isObjectTypeof u && jsTruthy u then
                let safeUpdate :=
                  match u with
                  | Value.obj kvs =>
                      if kvs.any (fun p => p.1.startsWith "$") then u
                      else Value.obj [("$set", u)]
                  | _ => Value.obj [("$set", u)]
                ([DbEffect.updateQ q.collection effFilter safeUpdate],
                 Except.ok (Value.obj [("acknowledged", Value.bool true)]))
              else ([], Except.error "updateOne requires an update object")
          | none => ([], Except.error "updateOne requires an update object")
      else if q.operation == "deleteOne" then
        if !jsTruthy effFilter || keysLength effFilter == 0 then
          ([], Except.error "deleteOne requires a specific filter")
        else
          ([DbEffect.deleteQ q.collection effFilter],
           Except.ok (Value.obj [("acknowledged", Value.bool true)]))
      else ([], Except.error ("Unsupported operation: " ++ q.operation))

/-- `AIAgentService.executeQuery`: the catch-handler rewraps every failure as
a `Database query failed: …` error. -/
def executeQuery (D : Nat) (q : Query) (conn : ConnType) (env : DbEnv) :
    List DbEffect × Except String Value :=
  let (effs, r) := executeQueryCore D q conn env
  (effs, r.mapError (fun e => "Database query failed: " ++ e))

/-! ### Schema registry key derivation (`SchemaRegistryService`) -/

/-- Drop characters up to and including the first `'@'`. -/
def dropThroughAt : List Char → List Char
  | [] => []
  | c :: rest => if c == '@' then rest else dropThroughAt rest

/-- The regex `\/\/[^@]+@` matches at this position: the scan head is `'/'`
and the remainder starts with `'/'`, a non-`@` character, and a later `@`. -/
def userinfoHere : List Char → Bool
  | '/' :: d :: rest2 => d != '@' && rest2.contains '@'
  | _ => false

/-- JS `url.replace(/\/\/[^@]+@/, '//')`: at the leftmost position where
`//` is followed by at least one non-`@` character and then an `@`, the
whole `//…@` segment collapses to `//`; otherwise the scan slides one
character. -/
def stripUserinfoGo : List Char → List Char
  | [] => []
  | c :: rest =>
      if c == '/' && userinfoHere rest then '/' :: '/' :: dropThroughAt rest.tail
      else c :: stripUserinfoGo rest

/-- `SchemaRegistryService.normalizeUrl`: strip the first `//userinfo@`
segment, then cut at the first `'?'` (the query string; `indexOf` +
`substring`, a no-op when no `'?'` occurs). -/
def normalizeUrl (dbUrl : String) : String :=
  String.mk ((stripUserinfoGo dbUrl.data).takeWhile (fun c => c != '?'))

/-- The registry key built in `getOrBuildSchemaString`:
the template literal `dbType:normalizedUrl`. -/
def dbKeyOf (dbType dbUrl : String) : String := dbType ++ ":" ++ normalizeUrl dbUrl

/-! ### WebSocket `join-session` handler (`WebSocketChatService`) -/

/-- The persisted chat-session fields the join handler reads or writes. -/
structure ChatSession where
  id : String
  userId : String
  title : String
  isActive : Bool
  messageCount : Nat
  lastActivity : Nat
deriving DecidableEq

/-- The session document `WebSocketChatService.createSession` builds
(timestamps as abstract ticks, `uuidv4()` as the supplied `genId`). -/
def createSessionDoc (now : Nat) (genId : String) (userId : String)
    (title : Option String) (id : Option String) : ChatSession :=
  { id := id.getD genId
    userId := userId
    title := title.getD "Chat Session"
    isActive := true
    messageCount := 0
    lastActivity := now }

/-- `WebSocketChatService.createSession`: builds the session document and
persists it with `ChatSessionModel.create`.  `ChatSessionSchema` declares
`id` with `unique: true` (src/src/models/chat.model.ts), so inserting a
document whose `id` is already present in the store makes the database
throw a duplicate-key error instead of persisting it. -/
def createSession (now : Nat) (genId : String) (userId : String)
    (title : Option String) (id : Option String) (sessions : List ChatSession) :
    Except String (List ChatSession × ChatSession) :=
  let s := createSessionDoc now genId userId title id
  if sessions.any (fun t => t.id == s.id) then
    Except.error "E11000 duplicate key error on ChatSession.id"
  else Except.ok (sessions ++ [s], s)

inductive JoinOutcome where
  | errorMsg (msg : String)
  | joined (sessionId : String)
deriving DecidableEq

/-- `ChatSessionModel.findOne({ id: sessionId, userId })`. -/
def findOneSession (sessions : List ChatSession) (sid uid : String) : Option ChatSession :=
  sessions.find? (fun s => s.id == sid && s.userId == uid)

/-- `session.lastActivity = new Date(); session.save()` on the found document. -/
def touchFirst (now : Nat) (sid uid : String) : List ChatSession → List ChatSession
  | [] => []
  | s :: rest =>
      if s.id == sid && s.userId == uid then { s with lastActivity := now } :: rest
      else s :: touchFirst now sid uid rest

/-- The `join-session` event handler: the stored sessions after the event
and the emitted outcome.  Rejects when the payload `userId` differs from the
socket's authenticated user; otherwise looks up the session by
`(sessionId, userId)` and, when absent, attempts to create one with the
requested id — if that `create` throws (in particular on the unique-index
duplicate-key error when another user owns a session with this id), the
handler's catch emits the `Failed to join session` error and no session
state changes. -/
def joinSession (now : Nat) (socketUserId : String) (sessions : List ChatSession)
    (sid uid : String) : List ChatSession × JoinOutcome :=
  if uid != socketUserId then
    (sessions, JoinOutcome.errorMsg "Unauthorized access to session")
  else
    match findOneSession sessions sid uid with
    | some _ => (touchFirst now sid uid sessions, JoinOutcome.joined sid)
    | none =>
        match createSession now "" uid (some "Chat Session") (some sid) sessions with
        | Except.ok (sessions2, _) => (sessions2, JoinOutcome.joined sid)
        | Except.error _ => (sessions, JoinOutcome.errorMsg "Failed to join session")

/-! ### Plan executor (`AIAgentService.executePlannedSteps`)

Each step's in-`try` execution (LLM call, query synthesis + execution, or
statistics) is environment-determined; the embedding carries that outcome
inside the step and models exactly the loop's bookkeeping: result recording,
trace entries, error capture, and final-data selection. -/

inductive PStep where
  | dbQuery (queryStr : String) (outcome : Except String Value)
  | computeStats (outcome : Except String Value)
  | llmAnalysis (outcome : Except String Value)

/-- `AIAgentService.previewArray` (default limit 10). -/
def previewArray : Value → Value
  | Value.arr vs => Value.arr (vs.take 10)
  | v => v

structure ToolOutput where
  stepIndex : Nat
  type : String
  output : Value

/-- What `stepResults[i]` holds after step `i` ran: the step's output, or the
`{ error: message }` object the catch-handler stores. -/
def recordedResult : PStep → Value
  | PStep.dbQuery _ (Except.ok v) => v
  | PStep.computeStats (Except.ok v) => v
  | PStep.llmAnalysis (Except.ok v) => v
  | PStep.dbQuery _ (Except.error m) => Value.obj [("error", Value.str m)]
  | PStep.computeStats (Except.error m) => Value.obj [("error", Value.str m)]
  | PStep.llmAnalysis (Except.error m) => Value.obj [("error", Value.str m)]

/-- The trace entry `toolOutputs` receives for step `i`. -/
def traceEntry (i : Nat) : PStep → ToolOutput
  | PStep.dbQuery qs (Except.ok v) =>
      ⟨i, "db_query", Value.obj [("query", Value.str qs), ("rows", previewArray v)]⟩
  | PStep.computeStats (Except.ok v) => ⟨i, "compute_statistics", v⟩
  | PStep.llmAnalysis (Except.ok v) => ⟨i, "llm_analysis", v⟩
  | PStep.dbQuery _ (Except.error m) => ⟨i, "error", Value.str m⟩
  | PStep.computeStats (Except.error m) => ⟨i, "error", Value.str m⟩
  | PStep.llmAnalysis (Except.error m) => ⟨i, "error", Value.str m⟩

/-- The `for` loop of `executePlannedSteps`: accumulates `stepResults` and
`toolOutputs` in order, never aborting on a failed step. -/
def execStepsLoop (i : Nat) : List PStep → List Value × List ToolOutput
  | [] => ([], [])
  | st :: rest =>
      let (rs, os) := execStepsLoop (i + 1) rest
      (recordedResult st :: rs, traceEntry i st :: os)

def isDbStep : PStep → Bool
  | PStep.dbQuery _ _ => true
  | _ => false

/-- `AIAgentService.executePlannedSteps`: step results, trace, and the chosen
`finalData` (reverse scan for the last `db_query` step; `== null` fallback to
the last step's result). -/
def executePlannedSteps (steps : List PStep) : List Value × List ToolOutput × Value :=
  let results := (execStepsLoop 0 steps).1
  let outs := (execStepsLoop 0 steps).2
  let finalData0 :=
    (((steps.zip results).reverse.find? (fun p => isDbStep p.1)).map (·.2)).getD Value.null
  let finalData :=
    match finalData0, steps with
    | Value.null, _ :: _ => (results.getLast?).getD Value.null
    | fd, _ => fd
  (results, outs, finalData)

/-! ### Greeting short-circuit (`AIAgentService.isGreeting` / `processQuery`) -/

/-- JS `String.prototype.trim` (ASCII whitespace). -/
def trimChars (cs : List Char) : List Char :=
  ((cs.dropWhile isJsSpace).reverse.dropWhile isJsSpace).reverse

/-- `AIAgentService.isGreeting`: trims and lowercases the input, then tests
the six conversational regexes. -/
def isGreeting (input : String) : Bool :=
  let t := toLowerList (trimChars input.data)
  if t.isEmpty then false
  else
    (["hi", "hello", "hey", "yo", "sup"].any (fun w =>
        match dropPfx w.data t with
        | some rest => rest.all (fun c => c == '!' || c == ',' || c == '.' || c == ' ')
        | none => false)) ||
    (match dropPfx "good".data t with
     | some r =>
         let r2 := r.dropWhile isJsSpace
         wordHere "morning".data r2 || wordHere "afternoon".data r2 ||
           wordHere "evening".data r2
     | none => false) ||
    (match dropPfx "how".data t with
     | some r =>
         match dropPfx "are".data (r.dropWhile isJsSpace) with
         | some r2 => wordHere "you".data (r2.dropWhile isJsSpace)
         | none => false
     | none => false) ||
    (wordHere "thanks".data t || wordHere "thank".data t) ||
    (match dropPfx "thank".data t with
     | some r => wordHere "you".data (r.dropWhile isJsSpace)
     | none => false) ||
    (match dropPfx "what".data t with
     | some r =>
         let r2 :=
           match r with
           | c :: rr => if c == Char.ofNat 39 then rr else r
           | [] => r
         match dropPfx "s".data r2 with
         | some r3 => wordHere "up".data (r3.dropWhile isJsSpace)
         | none => false
     | none => false)

/-- The arguments `processQuery` passes to `AIMemoryService.recordQuery` on
the greeting path (executionTime omitted: wall-clock). -/
structure MemoryRecordArgs where
  userId : String
  query : String
  generatedMongoQuery : String
  queryType : String
  collections : List String
  resultCount : Nat
  wasSuccessful : Bool
deriving DecidableEq

/-- The greeting short-circuit's observable outcome. -/
structure GreetingReply where
  data : Value
  message : String
  executedQueries : List DbEffect
  memoryRecord : MemoryRecordArgs

/-- The early-exit branch of `AIAgentService.processQuery`: when the user
text is a greeting, the pipeline returns `data: null` with the LLM's polite
message (`composeGeneralResponse` is a pure LLM call, passed in as
`politeMessage`), records a conversation memory entry via `recordQuery`,
and issues no query against the connected database.  For non-greetings the
branch is not taken (`none`). -/
def processQueryGreeting (userId userQuery politeMessage : String) : Option GreetingReply :=
  if isGreeting userQuery then
    some
      { data := Value.null
        message := politeMessage
        executedQueries := []
        memoryRecord :=
          { userId := userId
            query := userQuery
            generatedMongoQuery := "Conversation detected: no database query executed"
            queryType := "find"
            collections := ["n/a"]
            resultCount := 0
            wasSuccessful := true } }
  else none

/-! ### Memory service skill progression (`AIMemoryService`) -/

inductive SkillLevel where
  | beginner : SkillLevel
  | intermediate : SkillLevel
  | advanced : SkillLevel
deriving DecidableEq

/-- The `learningProfile`-relevant part of a `UserPreferences` document. -/
structure UserPrefs where
  skillLevel : SkillLevel
  commonMistakes : List String
deriving DecidableEq

/-- Per-user memory-store state: the number of persisted successful
`AIMemory` documents (what `countDocuments({userId, wasSuccessful: true})`
returns) and the preferences document if one exists. -/
structure MemoryState where
  successCount : Nat
  prefs : Option UserPrefs
deriving DecidableEq

def initialMemory : MemoryState := { successCount := 0, prefs := none }

/-- `AIMemoryService.updateUserPreferences`, restricted to the fields the
claims quantify over: creates a `beginner` profile when absent; on a
successful record counts successful documents and promotes
`beginner → intermediate` above 50 and `intermediate → advanced` above 150;
on a failed record only accumulates `commonMistakes` (deduplicated). -/
def updateUserPreferences (st : MemoryState) (queryPattern : String)
    (wasSuccessful : Bool) : MemoryState :=
  match st.prefs with
  | none =>
      { st with prefs := some { skillLevel := SkillLevel.beginner, commonMistakes := [] } }
  | some p =>
      if wasSuccessful then
        let successfulQueries := st.successCount
        let p2 :=
          if successfulQueries > 50 && decide (p.skillLevel = SkillLevel.beginner) then
            { p with skillLevel := SkillLevel.intermediate }
          else if successfulQueries > 150 && decide (p.skillLevel = SkillLevel.intermediate) then
            { p with skillLevel := SkillLevel.advanced }
          else p
        { st with prefs := some p2 }
      else
        if p.commonMistakes.contains queryPattern then st
        else { st with prefs := some { p with commonMistakes := p.commonMistakes ++ [queryPattern] } }

/-- `AIMemoryService.recordQuery`: persists the `AIMemory` document first
(so the success count includes it), then updates preferences. -/
def recordQuery (st : MemoryState) (queryPattern : String) (wasSuccessful : Bool) :
    MemoryState :=
  let st1 := { st with successCount := st.successCount + (if wasSuccessful then 1 else 0) }
  updateUserPreferences st1 queryPattern wasSuccessful

/-- A sequence of recorded turns for one user: each is (pattern label,
wasSuccessful). -/
def runRecords (st : MemoryState) (evs : List (String × Bool)) : MemoryState :=
  evs.foldl (fun s e => recordQuery s e.1 e.2) st

/-- The user's skill level as the rest of the pipeline reads it
(`beginner` when no preferences document exists). -/
def skillOf (st : MemoryState) : SkillLevel :=
  ((st.prefs).map (·.skillLevel)).getD SkillLevel.beginner

/-- The skill level the spec's thresholds predict from the number of
successful records. -/
def stratify (n : Nat) : SkillLevel :=
  if n ≤ 50 then SkillLevel.beginner
  else if n ≤ 150 then SkillLevel.intermediate
  else SkillLevel.advanced

/-! ## Theorems

### C4 — `$where` anywhere in a filter subtree is rejected -/

mutual

/-- Claim-side predicate: the key `$where` occurs somewhere in the value's
subtree — directly, nested inside objects, or inside arrays. -/
def hasWhereKey : Value → Bool
  | Value.obj kvs => hwEntries kvs
  | Value.arr vs => hwList vs
  | _ => false

def hwEntries : List (String × Value) → Bool
  | [] => false
  | (k, v) :: rest => k == "$where" || hasWhereKey v || hwEntries rest

def hwList : List Value → Bool
  | [] => false
  | v :: rest => hasWhereKey v || hwList rest

end

mutual

theorem containsDangerousMongo_of_hasWhereKey :
    ∀ v, hasWhereKey v = true → containsDangerousMongo v = true
  | Value.obj kvs, h => by
      simp only [hasWhereKey, containsDangerousMongo] at *
      exact cdmEntries_of_hwEntries kvs h
  | Value.arr vs, h => by
      simp only [hasWhereKey, containsDangerousMongo] at *
      exact cdmList_of_hwList vs h

theorem cdmEntries_of_hwEntries : ∀ kvs, hwEntries kvs = true → cdmEntries kvs = true
  | [], h => by simp [hwEntries] at h
  | (k, v) :: rest, h => by
      simp only [hwEntries, Bool.or_eq_true] at h
      simp only [cdmEntries, Bool.or_eq_true]
      rcases h with (hk | hv) | hrest
      · exact Or.inl (Or.inl (Or.inl hk))
      · refine Or.inl (Or.inr ?_)
        have hobj : isObjectTypeof v = true := by
          cases v <;> simp_all [hasWhereKey, isObjectTypeof]
        simp [hobj, containsDangerousMongo_of_hasWhereKey v hv]
      · exact Or.inr (cdmEntries_of_hwEntries rest hrest)

theorem cdmList_of_hwList : ∀ vs, hwList vs = true → cdmList vs = true
  | [], h => by simp [hwList] at h
  | v :: rest, h => by
      simp only [hwList, Bool.or_eq_true] at h
      simp only [cdmList, Bool.or_eq_true]
      rcases h with hv | hrest
      · exact Or.inl (containsDangerousMongo_of_hasWhereKey v hv)
      · exact Or.inr (cdmList_of_hwList rest hrest)

end

/-- C4: for every document-store query (any non-`sql` operation) whose
effective filter contains the key `$where` anywhere in its subtree —
directly, nested inside objects, or inside arrays — `executeQuery` rejects
it with the dangerous-operator error and issues no database call at all. -/
theorem C4_where_filter_rejected (D : Nat) (q : Query) (conn : ConnType) (env : DbEnv)
    (hop : q.operation ≠ "sql")
    (hw : hasWhereKey (q.filter.getD (Value.obj [])) = true) :
    executeQuery D q conn env =
      ([], Except.error "Database query failed: Dangerous Mongo operator in filter is blocked") := by
  have hd := containsDangerousMongo_of_hasWhereKey _ hw
  simp [executeQuery, executeQueryCore, hop, hd, Except.mapError]

/-- Witness for C4 at a concrete query: filter
`{a: [{$where: "sleep(1000)"}]}` (the `$where` nested inside an array inside
an object) on a `find` against a non-empty store. -/
theorem C4_where_filter_rejected_witness :
    ({ operation := "find", collection := "users",
       filter := some (Value.obj [("a", Value.arr [Value.obj
         [("$where", Value.str "sleep(1000)")]])]) } : Query).operation ≠ "sql" ∧
    executeQuery 1000
      { operation := "find", collection := "users",
        filter := some (Value.obj [("a", Value.arr [Value.obj
          [("$where", Value.str "sleep(1000)")]])]) }
      ConnType.mongodb ⟨[("users", [Value.obj [("x", Value.num 1)]])], []⟩ =
      ([], Except.error "Database query failed: Dangerous Mongo operator in filter is blocked") :=
  ⟨by decide,
   C4_where_filter_rejected 1000
     { operation := "find", collection := "users",
       filter := some (Value.obj [("a", Value.arr [Value.obj
         [("$where", Value.str "sleep(1000)")]])]) }
     ConnType.mongodb ⟨[("users", [Value.obj [("x", Value.num 1)]])], []⟩
     (by decide) (by decide)⟩

/-! ### C1 — no unfiltered write reaches a database -/

/-- The outcome of `executeQuery` is a rejection: an error was thrown with
no database call issued. -/
def isRejected (r : List DbEffect × Except String Value) : Prop :=
  r.1 = [] ∧ ∃ e, r.2 = Except.error e

theorem isRejected_wrap (D : Nat) (q : Query) (conn : ConnType) (env : DbEnv)
    (h : isRejected (executeQueryCore D q conn env)) :
    isRejected (executeQuery D q conn env) := by
  obtain ⟨h1, e, h2⟩ := h
  have hc : executeQueryCore D q conn env = ([], Except.error e) :=
    Prod.ext_iff.mpr ⟨h1, h2⟩
  unfold executeQuery
  rw [hc]
  exact ⟨rfl, _, rfl⟩

/-- C1: no unfiltered write ever reaches a database.  A relational `DELETE`
or `UPDATE` whose text has no `WHERE` token, and a document `updateOne` or
`deleteOne` whose filter is empty or absent, are rejected with an error
before any database call: the effect list is empty, so no rows are read or
modified. -/
theorem C1_no_unfiltered_write (D : Nat) (q : Query) (conn : ConnType) (env : DbEnv) :
    (q.operation = "sql" →
      (headWordAfterWS "delete" (toLowerList (q.sql.getD "").data) = true ∨
        headWordAfterWS "update" (toLowerList (q.sql.getD "").data) = true) →
      containsWord "where" (toLowerList (q.sql.getD "").data) = false →
      isRejected (executeQuery D q conn env)) ∧
    ((q.operation = "updateOne" ∨ q.operation = "deleteOne") →
      (q.filter = none ∨ q.filter = some (Value.obj [])) →
      isRejected (executeQuery D q conn env)) := by
  constructor
  · intro hop hdu hw
    apply isRejected_wrap
    unfold executeQueryCore
    have hs : (q.operation == "sql") = true := by simp [hop]
    by_cases h1 : (containsWord "drop" (toLowerList (q.sql.getD "").data) ||
        containsWord "truncate" (toLowerList (q.sql.getD "").data) ||
        containsWord "alter" (toLowerList (q.sql.getD "").data)) = true
    · simp [hs, h1]
      exact ⟨rfl, _, rfl⟩
    · have h1' : (containsWord "drop" (toLowerList (q.sql.getD "").data) ||
          containsWord "truncate" (toLowerList (q.sql.getD "").data) ||
          containsWord "alter" (toLowerList (q.sql.getD "").data)) = false := by
        simpa using h1
      rcases hdu with hd | hd
      · have h2 : (headWordAfterWS "delete" (toLowerList (q.sql.getD "").data) &&
            !containsWord "where" (toLowerList (q.sql.getD "").data)) = true := by
          rw [hd, hw]; rfl
        simp [hs, h1', h2]
        exact ⟨rfl, _, rfl⟩
      · by_cases h2 : (headWordAfterWS "delete" (toLowerList (q.sql.getD "").data) &&
            !containsWord "where" (toLowerList (q.sql.getD "").data)) = true
        · simp [hs, h1', h2]
          exact ⟨rfl, _, rfl⟩
        · have h2' : (headWordAfterWS "delete" (toLowerList (q.sql.getD "").data) &&
              !containsWord "where" (toLowerList (q.sql.getD "").data)) = false := by
            simpa using h2
          have h3 : (headWordAfterWS "update" (toLowerList (q.sql.getD "").data) &&
              !containsWord "where" (toLowerList (q.sql.getD "").data)) = true := by
            rw [hd, hw]; rfl
          simp [hs, h1', h2', h3]
          exact ⟨rfl, _, rfl⟩
  · intro hop hf
    apply isRejected_wrap
    unfold executeQueryCore
    have hs : (q.operation == "sql") = false := by
      rcases hop with h | h <;> simp [h]
    rcases hop with hop | hop <;> rcases hf with hf | hf <;>
      simp [hs, hop, hf, containsDangerousMongo, cdmEntries, keysLength, jsTruthy]
    all_goals exact ⟨rfl, _, rfl⟩

/-- Witness for C1: `DELETE FROM orders` (no WHERE) on a relational
connection, and a document `updateOne` with an empty filter, are both
rejected with no database call. -/
theorem C1_no_unfiltered_write_witness :
    isRejected (executeQuery 1000 { operation := "sql", sql := some "DELETE FROM orders" }
      ConnType.postgres ⟨[], []⟩) ∧
    isRejected (executeQuery 1000
      { operation := "updateOne", collection := "users", filter := some (Value.obj []),
        update := some (Value.obj [("name", Value.str "x")]) }
      ConnType.mongodb ⟨[], []⟩) :=
  ⟨(C1_no_unfiltered_write 1000
      { operation := "sql", sql := some "DELETE FROM orders" } ConnType.postgres ⟨[], []⟩).1
      rfl (Or.inl (by decide)) (by decide),
   (C1_no_unfiltered_write 1000
      { operation := "updateOne", collection := "users", filter := some (Value.obj []),
        update := some (Value.obj [("name", Value.str "x")]) } ConnType.mongodb ⟨[], []⟩).2
      (Or.inl rfl) (Or.inr rfl)⟩

/-! ### C2 — row caps on reads and aggregations -/

theorem effFindLimit_le (D : Nat) (l : Option Int) : effFindLimit D l ≤ D := by
  unfold effFindLimit
  exact Int.toNat_le.mpr (min_le_right _ _)

theorem effFindLimit_pos (D : Nat) (l : Int) (hl : 0 < l) :
    (effFindLimit D (some l) : Int) = min l (D : Int) := by
  have hne : (l == 0) = false := by simp; omega
  have hj : jsOrInt (some l) (D : Int) = l := by
    show (if (l == 0) = true then (D : Int) else l) = l
    rw [hne]
    simp
  unfold effFindLimit
  rw [hj]
  exact Int.toNat_of_nonneg (le_min (by omega) (Int.natCast_nonneg D))

/-- Appending `{$limit: D}` to a pipeline caps the result at `D` rows. -/
theorem runAggPipeline_append_limit (docs : List Value) (stages : List Value) (D : Nat) :
    runAggPipeline docs (stages ++ [Value.obj [("$limit", Value.num (D : Int))]]) =
      (runAggPipeline docs stages).take D := by
  unfold runAggPipeline
  rw [List.foldl_append]
  show runAggStage (List.foldl runAggStage docs stages)
      (Value.obj [("$limit", Value.num (D : Int))]) = _
  unfold runAggStage
  simp [objGet, List.find?]

/-- C2 (amended): a `find` is executed with
`limit = min(limit || DEFAULT_ROW_LIMIT, DEFAULT_ROW_LIMIT)` — equal to
`min(callerLimit, D)` whenever the caller limit is positive, and `D` when it
is absent or zero — so its result has at most `D` rows; an aggregation whose
pipeline has no truthy `$limit` stage (and no `$out`/`$merge`) is executed
with `{$limit: D}` appended and its result has at most `D` rows.
(Aggregations carrying their own `$limit` stage keep it unchanged and are
not capped at `D`; see the counterexample.) -/
theorem C2_row_cap_amended (D : Nat) (q : Query) (conn : ConnType) (env : DbEnv) :
    (q.operation = "find" →
      containsDangerousMongo (q.filter.getD (Value.obj [])) = false →
      executeQuery D q conn env =
        ([DbEffect.findQ q.collection (q.filter.getD (Value.obj [])) (effFindLimit D q.limit)],
          Except.ok (Value.arr (((env.docsOf q.collection).filter
            (dbMatches (q.filter.getD (Value.obj [])))).take (effFindLimit D q.limit)))) ∧
      (((env.docsOf q.collection).filter (dbMatches (q.filter.getD (Value.obj [])))).take
          (effFindLimit D q.limit)).length ≤ D) ∧
    (∀ l : Int, 0 < l → (effFindLimit D (some l) : Int) = min l (D : Int)) ∧
    (q.operation = "aggregate" →
      containsDangerousMongo (q.filter.getD (Value.obj [])) = false →
      ∀ stages : List Value,
        jsOrValue q.pipeline (jsOrValue (objGet (q.filter.getD (Value.obj [])) "pipeline")
          (Value.arr [Value.obj [("$match", q.filter.getD (Value.obj []))]])) =
            Value.arr stages →
        (stages.any (fun st => stageTruthyKey st "$out" || stageTruthyKey st "$merge")) = false →
        (stages.any (fun st => stageTruthyKey st "$limit")) = false →
        executeQuery D q conn env =
          ([DbEffect.aggQ q.collection (stages ++ [Value.obj [("$limit", Value.num (D : Int))]])],
            Except.ok (Value.arr (runAggPipeline (env.docsOf q.collection)
              (stages ++ [Value.obj [("$limit", Value.num (D : Int))]])))) ∧
        (runAggPipeline (env.docsOf q.collection)
            (stages ++ [Value.obj [("$limit", Value.num (D : Int))]])).length ≤ D) := by
  refine ⟨?_, fun l hl => effFindLimit_pos D l hl, ?_⟩
  · intro hop hd
    have hs : (q.operation == "sql") = false := by simp [hop]
    constructor
    · unfold executeQuery executeQueryCore
      simp [hs, hop, hd, Except.mapError]
    · calc (((env.docsOf q.collection).filter
            (dbMatches (q.filter.getD (Value.obj [])))).take (effFindLimit D q.limit)).length
          ≤ effFindLimit D q.limit := by
            rw [List.length_take]; exact min_le_left _ _
        _ ≤ D := effFindLimit_le D q.limit
  · intro hop hd stages hstages hout hlim
    have hs : (q.operation == "sql") = false := by simp [hop]
    constructor
    · unfold executeQuery executeQueryCore
      simp [hs, hop, hd, hstages, hout, hlim, Except.mapError]
    · rw [runAggPipeline_append_limit]
      rw [List.length_take]
      exact min_le_left _ _

/-- Witness for C2 (amended) at concrete inputs: a `find` with caller limit
5 against 7 documents under cap 2, and a `$match`-only aggregation against
3 documents under cap 2. -/
theorem C2_row_cap_amended_witness :
    (executeQuery 2
        { operation := "find", collection := "c", limit := some 5 }
        ConnType.mongodb ⟨[("c", List.replicate 7 Value.null)], []⟩ =
      ([DbEffect.findQ "c" (Value.obj []) (effFindLimit 2 (some 5))],
        Except.ok (Value.arr (((DbEnv.docsOf ⟨[("c", List.replicate 7 Value.null)], []⟩
          "c").filter (dbMatches (Value.obj []))).take (effFindLimit 2 (some 5))))) ∧
      (((DbEnv.docsOf ⟨[("c", List.replicate 7 Value.null)], []⟩ "c").filter
        (dbMatches (Value.obj []))).take (effFindLimit 2 (some 5))).length ≤ 2) ∧
    ((effFindLimit 2 (some 5) : Int) = min 5 2) ∧
    (executeQuery 2
        { operation := "aggregate", collection := "c",
          pipeline := some (Value.arr [Value.obj [("$match", Value.obj [])]]) }
        ConnType.mongodb ⟨[("c", List.replicate 3 Value.null)], []⟩ =
      ([DbEffect.aggQ "c" ([Value.obj [("$match", Value.obj [])]] ++
          [Value.obj [("$limit", Value.num (2 : Int))]])],
        Except.ok (Value.arr (runAggPipeline
          (DbEnv.docsOf ⟨[("c", List.replicate 3 Value.null)], []⟩ "c")
          ([Value.obj [("$match", Value.obj [])]] ++
            [Value.obj [("$limit", Value.num (2 : Int))]])))) ∧
      (runAggPipeline (DbEnv.docsOf ⟨[("c", List.replicate 3 Value.null)], []⟩ "c")
        ([Value.obj [("$match", Value.obj [])]] ++
          [Value.obj [("$limit", Value.num (2 : Int))]])).length ≤ 2) :=
  ⟨(C2_row_cap_amended 2 { operation := "find", collection := "c", limit := some 5 }
      ConnType.mongodb ⟨[("c", List.replicate 7 Value.null)], []⟩).1 rfl (by decide),
   (C2_row_cap_amended 2 { operation := "find", collection := "c", limit := some 5 }
      ConnType.mongodb ⟨[("c", List.replicate 7 Value.null)], []⟩).2.1 5 (by decide),
   (C2_row_cap_amended 2
      { operation := "aggregate", collection := "c",
        pipeline := some (Value.arr [Value.obj [("$match", Value.obj [])]]) }
      ConnType.mongodb ⟨[("c", List.replicate 3 Value.null)], []⟩).2.2 rfl (by decide)
      [Value.obj [("$match", Value.obj [])]] rfl (by decide) (by decide)⟩

/-- Counterexample to C2 as stated: an aggregation whose pipeline carries an
explicit `$limit: 3` stage larger than the configured cap `D = 2` is executed
unchanged (no `{$limit: D}` appended) and returns 3 rows — more than the cap.
Also, a `find` with caller limit 0 is executed with limit `D`, not
`min(0, D) = 0`: it returns a row even though `min` of the claim would
return none. -/
theorem C2_row_cap_counterexample :
    (executeQuery 2
        { operation := "aggregate", collection := "c",
          pipeline := some (Value.arr [Value.obj [("$limit", Value.num 3)]]) }
        ConnType.mongodb ⟨[("c", [Value.null, Value.null, Value.null])], []⟩).2 =
      Except.ok (Value.arr [Value.null, Value.null, Value.null]) ∧
    2 < ([Value.null, Value.null, Value.null] : List Value).length ∧
    effFindLimit 2 (some 0) = 2 := by
  refine ⟨rfl, by norm_num, by decide⟩

/-! ### C3 — the multiple-statements guard -/

/-- C3 (amended): the multiple-statements guard counts semicolons and fires
only when more than one occurs, and only after the dangerous-verb,
unfiltered-write and comment guards have all passed; text with a single
separator (two statements joined by one semicolon) is not rejected by this
rule.  In particular `"SELECT 1; DROP TABLE users"` is rejected by the
earlier dangerous-verb guard, not the multiple-statements error (see the
counterexample). -/
theorem C3_multi_statement_amended (D : Nat) (q : Query) (conn : ConnType) (env : DbEnv)
    (hop : q.operation = "sql")
    (h1 : (containsWord "drop" (toLowerList (q.sql.getD "").data) ||
        containsWord "truncate" (toLowerList (q.sql.getD "").data) ||
        containsWord "alter" (toLowerList (q.sql.getD "").data)) = false)
    (h2 : (headWordAfterWS "delete" (toLowerList (q.sql.getD "").data) &&
        !containsWord "where" (toLowerList (q.sql.getD "").data)) = false)
    (h3 : (headWordAfterWS "update" (toLowerList (q.sql.getD "").data) &&
        !containsWord "where" (toLowerList (q.sql.getD "").data)) = false)
    (h4 : (hasSubstr "--" (q.sql.getD "").data || hasSubstr "/*" (q.sql.getD "").data) = false)
    (h5 : 1 < ((q.sql.getD "").data).count ';') :
    executeQuery D q conn env =
      ([], Except.error "Database query failed: Multiple SQL statements are blocked") := by
  have hs : (q.operation == "sql") = true := by simp [hop]
  unfold executeQuery executeQueryCore
  simp [hs, h1, h2, h3, h4, h5, Except.mapError]

/-- Witness for C3 (amended): `SELECT 1; SELECT 2; SELECT 3` carries two
semicolons and no other guard applies, so the multiple-statements error is
raised with no database call. -/
theorem C3_multi_statement_amended_witness :
    executeQuery 1000 { operation := "sql", sql := some "SELECT 1; SELECT 2; SELECT 3" }
      ConnType.postgres ⟨[], []⟩ =
      ([], Except.error "Database query failed: Multiple SQL statements are blocked") :=
  C3_multi_statement_amended 1000
    { operation := "sql", sql := some "SELECT 1; SELECT 2; SELECT 3" }
    ConnType.postgres ⟨[], []⟩ rfl (by decide) (by decide) (by decide) (by decide) (by decide)

/-- Counterexample to C3 as stated: `"SELECT 1; DROP TABLE users"` has a
single semicolon, so the multiple-statements guard (which requires more than
one) never fires; the query is instead rejected by the earlier
dangerous-verb guard with a different error.  The DROP is still never
executed, but the claimed error code is wrong. -/
theorem C3_counterexample :
    executeQuery 1000 { operation := "sql", sql := some "SELECT 1; DROP TABLE users" }
      ConnType.postgres ⟨[], []⟩ =
      ([], Except.error "Database query failed: Dangerous SQL operation blocked") ∧
    ("Database query failed: Dangerous SQL operation blocked" ≠
      "Database query failed: Multiple SQL statements are blocked") ∧
    ("SELECT 1; DROP TABLE users" : String).data.count ';' = 1 :=
  ⟨rfl, by decide, by decide⟩

/-! ### C5 — schema-registry key derivation -/

theorem dropThroughAt_append (c r : List Char) (hca : '@' ∉ c) :
    dropThroughAt (c ++ '@' :: r) = r := by
  induction c with
  | nil => simp [dropThroughAt]
  | cons a c ih =>
      have ha : (a == '@') = false := by
        simp only [beq_eq_false_iff_ne, ne_eq]
        intro h
        exact hca (h ▸ List.mem_cons_self a c)
      show (if (a == '@') = true then _ else dropThroughAt (c ++ '@' :: r)) = r
      rw [ha]
      simp only [Bool.false_eq_true, if_false]
      exact ih (fun h => hca (List.mem_cons_of_mem a h))

theorem stripUserinfoGo_shape (s : List Char) (hs : '/' ∉ s) (c r : List Char)
    (hc : c ≠ []) (hca : '@' ∉ c) :
    stripUserinfoGo (s ++ '/' :: '/' :: (c ++ '@' :: r)) =
      s ++ '/' :: '/' :: r := by
  induction s with
  | nil =>
      cases c with
      | nil => exact absurd rfl hc
      | cons c0 ct =>
          have hc0 : (c0 != '@') = true := by
            simp only [bne_iff_ne, ne_eq]
            intro h
            exact hca (h ▸ List.mem_cons_self c0 ct)
          have hat : ((ct ++ '@' :: r).contains '@') = true := by
            simp [List.contains]
          show (if (('/' == '/') && userinfoHere ('/' :: (c0 :: ct ++ '@' :: r))) = true
              then _ else _) = _
          have hui : userinfoHere ('/' :: (c0 :: ct ++ '@' :: r)) = true := by
            show ((c0 != '@') && ((ct ++ '@' :: r).contains '@')) = true
            rw [hc0, hat]
            rfl
          rw [hui]
          simp only [BEq.refl, Bool.and_self, if_true]
          show '/' :: '/' :: dropThroughAt (c0 :: ct ++ '@' :: r) = '/' :: '/' :: r
          rw [dropThroughAt_append (c0 :: ct) r hca]
  | cons a s' ih =>
      have ha : (a == '/') = false := by
        simp only [beq_eq_false_iff_ne, ne_eq]
        intro h
        exact hs (h ▸ List.mem_cons_self a s')
      show (if ((a == '/') && userinfoHere (s' ++ '/' :: '/' :: (c ++ '@' :: r))) = true
          then _ else a :: stripUserinfoGo (s' ++ '/' :: '/' :: (c ++ '@' :: r))) = _
      rw [ha]
      simp only [Bool.false_and, Bool.false_eq_true, if_false]
      rw [ih (fun h => hs (List.mem_cons_of_mem a h))]
      simp

theorem takeWhile_until_mark (x y : List Char) (hx : '?' ∉ x) :
    (x ++ '?' :: y).takeWhile (fun c => c != '?') = x := by
  induction x with
  | nil => simp [List.takeWhile]
  | cons a x ih =>
      have ha : (a != '?') = true := by
        simp only [bne_iff_ne, ne_eq]
        intro h
        exact hx (h ▸ List.mem_cons_self a x)
      simp only [List.cons_append, List.takeWhile_cons, ha, if_true]
      rw [ih (fun h => hx (List.mem_cons_of_mem a h))]

/-- `normalizeUrl` on a URL of the usual shape
`scheme://credentials@rest?query`: the credentials and the query string are
both removed. -/
theorem normalizeUrl_strips (scheme c rest q : String)
    (hs : '/' ∉ scheme.data) (hsq : '?' ∉ scheme.data)
    (hc : c.data ≠ []) (hca : '@' ∉ c.data) (hrq : '?' ∉ rest.data) :
    normalizeUrl (scheme ++ "://" ++ c ++ "@" ++ rest ++ "?" ++ q) =
      scheme ++ "://" ++ rest := by
  have hdata : (scheme ++ "://" ++ c ++ "@" ++ rest ++ "?" ++ q).data =
      (scheme.data ++ [':']) ++ '/' :: '/' :: (c.data ++ '@' :: (rest.data ++ '?' :: q.data)) := by
    simp [String.data_append]
  have hslash : '/' ∉ scheme.data ++ [':'] := by
    intro h
    rcases List.mem_append.mp h with h | h
    · exact hs h
    · simp at h
  have hstrip := stripUserinfoGo_shape (scheme.data ++ [':']) hslash c.data
    (rest.data ++ '?' :: q.data) hc hca
  have hnoq : '?' ∉ (scheme.data ++ [':']) ++ '/' :: '/' :: rest.data := by
    intro h
    rcases List.mem_append.mp h with h | h
    · rcases List.mem_append.mp h with h | h
      · exact hsq h
      · simp at h
    · simp only [List.mem_cons] at h
      rcases h with h | h | h
      · exact absurd h (by decide)
      · exact absurd h (by decide)
      · exact hrq h
  have hregroup : (scheme.data ++ [':']) ++ '/' :: '/' :: (rest.data ++ '?' :: q.data) =
      ((scheme.data ++ [':']) ++ '/' :: '/' :: rest.data) ++ '?' :: q.data := by
    simp
  unfold normalizeUrl
  rw [hdata, hstrip, hregroup,
    takeWhile_until_mark _ _ hnoq]
  apply String.ext
  simp [String.data_append]

/-- C5 (amended): the schema-registry key is derived by stripping userinfo
and the query string from the URL and prefixing the database kind and a
colon — the stripped URL is stored in plaintext, with no SHA-256 hashing.
Consequently two URLs differing only in embedded credentials (`@`-free, as
in `user:pass`) or query string map to the same `dbKey`, which mentions
neither credential. -/
theorem C5_key_derivation_amended (kind scheme c1 c2 rest q1 q2 : String)
    (hs : '/' ∉ scheme.data) (hsq : '?' ∉ scheme.data)
    (hc1 : c1.data ≠ []) (hc1a : '@' ∉ c1.data)
    (hc2 : c2.data ≠ []) (hc2a : '@' ∉ c2.data)
    (hrq : '?' ∉ rest.data) :
    dbKeyOf kind (scheme ++ "://" ++ c1 ++ "@" ++ rest ++ "?" ++ q1) =
      kind ++ ":" ++ (scheme ++ "://" ++ rest) ∧
    dbKeyOf kind (scheme ++ "://" ++ c1 ++ "@" ++ rest ++ "?" ++ q1) =
      dbKeyOf kind (scheme ++ "://" ++ c2 ++ "@" ++ rest ++ "?" ++ q2) := by
  have h1 := normalizeUrl_strips scheme c1 rest q1 hs hsq hc1 hc1a hrq
  have h2 := normalizeUrl_strips scheme c2 rest q2 hs hsq hc2 hc2a hrq
  unfold dbKeyOf
  rw [h1, h2]
  exact ⟨rfl, rfl⟩

/-- Witness for C5 (amended): two mongodb URLs differing only in credentials
and query string produce the same key, which is the kind plus the stripped
URL in plaintext. -/
theorem C5_key_derivation_amended_witness :
    dbKeyOf "mongodb" ("mongodb" ++ "://" ++ "user:pass" ++ "@" ++ "host:27017/db" ++ "?" ++ "retryWrites=true") =
      "mongodb" ++ ":" ++ ("mongodb" ++ "://" ++ "host:27017/db") ∧
    dbKeyOf "mongodb" ("mongodb" ++ "://" ++ "user:pass" ++ "@" ++ "host:27017/db" ++ "?" ++ "retryWrites=true") =
      dbKeyOf "mongodb" ("mongodb" ++ "://" ++ "admin:hunter2" ++ "@" ++ "host:27017/db" ++ "?" ++ "ssl=false") :=
  C5_key_derivation_amended "mongodb" "mongodb" "user:pass" "admin:hunter2"
    "host:27017/db" "retryWrites=true" "ssl=false"
    (by decide) (by decide) (by decide) (by decide) (by decide) (by decide) (by decide)

/-- Counterexample to C5 as stated: the stored key is the kind and the
stripped URL in plaintext — `dbKey("mongodb", "mongodb://h/db") =
"mongodb:mongodb://h/db"` — and keys for same-kind URLs have different
lengths, so the derivation applies no fixed-width SHA-256 digest (a hash
would give every key of one kind the same length). -/
theorem C5_counterexample :
    dbKeyOf "mongodb" "mongodb://h/db" = "mongodb:mongodb://h/db" ∧
    (dbKeyOf "mongodb" "mongodb://h/db").length ≠
      (dbKeyOf "mongodb" "mongodb://hostwithlongername/db").length :=
  ⟨by decide, by decide⟩

/-! ### C6 — joining a session owned by another user -/

/-- Every element of `touchFirst`'s output has the id of some input
element (only `lastActivity` is rewritten). -/
theorem mem_touchFirst_id (now : Nat) (sid uid : String) :
    ∀ (l : List ChatSession), ∀ b ∈ touchFirst now sid uid l, ∃ a ∈ l, b.id = a.id := by
  intro l
  induction l with
  | nil => intro b hb; simp [touchFirst] at hb
  | cons s rest ih =>
      intro b hb
      unfold touchFirst at hb
      by_cases hc : (s.id == sid && s.userId == uid) = true
      · rw [if_pos hc] at hb
        rcases List.mem_cons.mp hb with hb | hb
        · exact ⟨s, List.mem_cons_self s rest, by rw [hb]⟩
        · exact ⟨b, List.mem_cons_of_mem s hb, rfl⟩
      · rw [if_neg hc] at hb
        rcases List.mem_cons.mp hb with hb | hb
        · exact ⟨s, List.mem_cons_self s rest, by rw [hb]⟩
        · obtain ⟨a, ha, hid⟩ := ih b hb
          exact ⟨a, List.mem_cons_of_mem s ha, hid⟩

/-- Touching `lastActivity` preserves distinctness of session ids. -/
theorem touchFirst_pairwise (now : Nat) (sid uid : String) :
    ∀ (l : List ChatSession), List.Pairwise (fun a b => a.id ≠ b.id) l →
      List.Pairwise (fun a b => a.id ≠ b.id) (touchFirst now sid uid l) := by
  intro l
  induction l with
  | nil => intro h; simpa [touchFirst] using h
  | cons s rest ih =>
      intro h
      rcases List.pairwise_cons.mp h with ⟨hhead, htail⟩
      unfold touchFirst
      by_cases hc : (s.id == sid && s.userId == uid) = true
      · rw [if_pos hc]
        exact List.pairwise_cons.mpr ⟨fun b hb => hhead b hb, htail⟩
      · rw [if_neg hc]
        refine List.pairwise_cons.mpr ⟨?_, ih htail⟩
        intro b hb
        obtain ⟨a, ha, hid⟩ := mem_touchFirst_id now sid uid rest b hb
        rw [hid]
        exact hhead a ha

/-- C6: a `join(sessionId, userId)` event for a sessionId that already
exists and is owned only by a different user is rejected — the per-user
lookup misses, `ChatSessionModel.create` hits the unique index on
`ChatSession.id` and throws, and the handler's catch emits an error — with
no change to the session store; moreover the handler preserves distinctness
of session ids, so a session keeps belonging to exactly one user. -/
theorem C6_foreign_join_rejected (now : Nat) (sockUid : String)
    (sessions : List ChatSession) (sid uid : String) :
    ((∃ s ∈ sessions, s.id = sid) →
      (∀ s ∈ sessions, s.id = sid → s.userId ≠ uid) →
      (joinSession now sockUid sessions sid uid).1 = sessions ∧
      ∃ m, (joinSession now sockUid sessions sid uid).2 = JoinOutcome.errorMsg m) ∧
    (List.Pairwise (fun a b => a.id ≠ b.id) sessions →
      List.Pairwise (fun a b => a.id ≠ b.id)
        (joinSession now sockUid sessions sid uid).1) := by
  constructor
  · intro h1 h2
    unfold joinSession
    by_cases hb : (uid != sockUid) = true
    · rw [if_pos hb]
      exact ⟨rfl, _, rfl⟩
    · have hb2 : (uid != sockUid) = false := by simpa using hb
      rw [hb2]
      simp only [Bool.false_eq_true, if_false]
      have hfind : findOneSession sessions sid uid = none := by
        unfold findOneSession
        rw [List.find?_eq_none]
        intro s hsmem
        simp only [Bool.and_eq_true, beq_iff_eq, not_and]
        intro hid
        exact fun huid => h2 s hsmem hid huid
      rw [hfind]
      have hany : (sessions.any (fun t =>
          t.id == (createSessionDoc now "" uid (some "Chat Session") (some sid)).id)) = true := by
        obtain ⟨s, hs, hid⟩ := h1
        refine List.any_eq_true.mpr ⟨s, hs, ?_⟩
        simp [createSessionDoc, hid]
      unfold createSession
      dsimp only
      rw [hany]
      exact ⟨rfl, _, rfl⟩
  · intro hpw
    unfold joinSession
    by_cases hb : (uid != sockUid) = true
    · rw [if_pos hb]
      exact hpw
    · have hb2 : (uid != sockUid) = false := by simpa using hb
      rw [hb2]
      simp only [Bool.false_eq_true, if_false]
      cases hfind : findOneSession sessions sid uid with
      | some s => exact touchFirst_pairwise now sid uid sessions hpw
      | none =>
          unfold createSession
          dsimp only
          by_cases hany : (sessions.any (fun t =>
              t.id == (createSessionDoc now "" uid (some "Chat Session") (some sid)).id)) = true
          · rw [hany]
            exact hpw
          · have hany2 : (sessions.any (fun t =>
                t.id == (createSessionDoc now "" uid (some "Chat Session") (some sid)).id)) = false := by
              simpa using hany
            rw [hany2]
            simp only [Bool.false_eq_true, if_false]
            refine List.pairwise_append.mpr ⟨hpw, List.pairwise_singleton _ _, ?_⟩
            intro a ha b hbmem
            have hb1 : b = createSessionDoc now "" uid (some "Chat Session") (some sid) := by
              simpa using hbmem
            intro hid
            have hbeq : (a.id == (createSessionDoc now "" uid (some "Chat Session") (some sid)).id) = true := by
              rw [← hb1, hid]
              exact beq_self_eq_true _
            have hcontra : (sessions.any (fun t =>
                t.id == (createSessionDoc now "" uid (some "Chat Session") (some sid)).id)) = true :=
              List.any_eq_true.mpr ⟨a, ha, hbeq⟩
            rw [hany2] at hcontra
            exact absurd hcontra (by simp)

/-- Witness for C6 at a concrete state: "alice" owns the only session with
id `"s1"`; authenticated "bob" tries to join `"s1"`.  The store is
unchanged, an error is emitted, and id-distinctness is preserved. -/
theorem C6_foreign_join_rejected_witness :
    ((joinSession 5 "bob" [⟨"s1", "alice", "T", true, 0, 0⟩] "s1" "bob").1 =
      [⟨"s1", "alice", "T", true, 0, 0⟩] ∧
      ∃ m, (joinSession 5 "bob" [⟨"s1", "alice", "T", true, 0, 0⟩] "s1" "bob").2 =
        JoinOutcome.errorMsg m) ∧
    List.Pairwise (fun a b => a.id ≠ b.id)
      (joinSession 5 "bob" [⟨"s1", "alice", "T", true, 0, 0⟩] "s1" "bob").1 :=
  ⟨(C6_foreign_join_rejected 5 "bob" [⟨"s1", "alice", "T", true, 0, 0⟩] "s1" "bob").1
      (by decide) (by decide),
   (C6_foreign_join_rejected 5 "bob" [⟨"s1", "alice", "T", true, 0, 0⟩] "s1" "bob").2
      (by decide)⟩

/-! ### C7 — step failures, trace entries, and final-data selection -/

theorem execStepsLoop_fst : ∀ (i : Nat) (steps : List PStep),
    (execStepsLoop i steps).1 = steps.map recordedResult := by
  intro i steps
  induction steps generalizing i with
  | nil => rfl
  | cons st rest ih => simp [execStepsLoop, ih]

theorem execStepsLoop_snd : ∀ (i : Nat) (steps : List PStep),
    (execStepsLoop i steps).2 = (steps.enumFrom i).map (fun p => traceEntry p.1 p.2) := by
  intro i steps
  induction steps generalizing i with
  | nil => rfl
  | cons st rest ih => simp [execStepsLoop, List.enumFrom, ih]

theorem zip_self_map (l : List PStep) (f : PStep → Value) :
    l.zip (l.map f) = l.map (fun s => (s, f s)) := by
  induction l with
  | nil => rfl
  | cons a l ih => simp [List.zip_cons_cons, ih]

theorem find?_pair_map (l : List PStep) :
    ((l.map (fun s => (s, recordedResult s))).find? (fun p => isDbStep p.1)).map (·.2) =
      (l.find? isDbStep).map recordedResult := by
  induction l with
  | nil => rfl
  | cons a l ih =>
      cases h : isDbStep a with
      | true =>
          simp only [List.map_cons, List.find?_cons]
          rw [h]
          simp
      | false =>
          simp only [List.map_cons, List.find?_cons]
          rw [h]
          exact ih

theorem getLast?_map_pstep (l : List PStep) (f : PStep → Value) :
    (l.map f).getLast? = (l.getLast?).map f := by
  induction l with
  | nil => rfl
  | cons a l ih =>
      cases l with
      | nil => rfl
      | cons b m => simpa using ih

/-- The spec-side description of the chosen final data, as amended: the last
`db_query` step's recorded result — its `{error: …}` object if it failed —
when a `db_query` step exists and that recorded result is not `null`;
otherwise the last step's recorded result (or `null` for an empty plan). -/
def specFinalData (steps : List PStep) : Value :=
  match steps.reverse.find? isDbStep with
  | some st =>
      match recordedResult st with
      | Value.null => ((steps.getLast?).map recordedResult).getD Value.null
      | v => v
  | none => ((steps.getLast?).map recordedResult).getD Value.null

/-- C7 (amended): during plan execution every step runs (one trace entry per
step, also after failures), a failed step `i` is recorded as
`{stepIndex: i, type: error, output: reason}` while successful results are
preserved in order, and the final data is the last `db_query` step's
recorded result — its error object if that step failed — when a `db_query`
step exists and its recorded result is non-null, otherwise the last step's
recorded output. -/
theorem C7_step_failure_amended (steps : List PStep) :
    executePlannedSteps steps =
      (steps.map recordedResult,
        (steps.enumFrom 0).map (fun p => traceEntry p.1 p.2),
        specFinalData steps) := by
  unfold executePlannedSteps
  rw [execStepsLoop_fst 0 steps, execStepsLoop_snd 0 steps]
  refine congrArg (Prod.mk _) (congrArg (Prod.mk _) ?_)
  rw [zip_self_map, ← List.map_reverse, find?_pair_map, getLast?_map_pstep]
  unfold specFinalData
  cases hf : steps.reverse.find? isDbStep with
  | none => cases steps <;> simp [hf]
  | some st =>
      cases steps with
      | nil => simp at hf
      | cons s ss =>
          cases hrv : recordedResult st <;> simp [hf, hrv]

/-- Counterexample to C7 as stated: a plan whose first `db_query` succeeds
with result `"r1"` and whose second (last) `db_query` fails.  The claim says
the final data is the last successful `db_query` result (`"r1"`); the code
instead selects the last `db_query` step regardless of success, so the final
data is the failed step's `{error: "boom"}` record. -/
theorem C7_counterexample :
    (executePlannedSteps [PStep.dbQuery "q1" (Except.ok (Value.str "r1")),
        PStep.dbQuery "q2" (Except.error "boom")]).2.2 =
      Value.obj [("error", Value.str "boom")] ∧
    Value.obj [("error", Value.str "boom")] ≠ Value.str "r1" ∧
    (executePlannedSteps [PStep.dbQuery "q1" (Except.ok (Value.str "r1")),
        PStep.dbQuery "q2" (Except.error "boom")]).2.1 =
      [⟨0, "db_query", Value.obj [("query", Value.str "q1"), ("rows", Value.str "r1")]⟩,
        ⟨1, "error", Value.str "boom"⟩] :=
  ⟨rfl, fun h => Value.noConfusion h, rfl⟩

/-! ### C8 — the greeting short-circuit -/

/-- C8 (amended): for every input matching the conversational patterns the
pipeline short-circuits: it returns `data = null` with the LLM-composed
polite message, executes no query against the connected database, and still
records a memory entry — whose `queryType` is `"find"` (the `recordQuery`
type union has no `conversation` kind) with generated-query text
`"Conversation detected: no database query executed"` and collections
`["n/a"]`. -/
theorem C8_greeting_amended (uid q msg : String) (h : isGreeting q = true) :
    processQueryGreeting uid q msg =
      some
        { data := Value.null
          message := msg
          executedQueries := []
          memoryRecord :=
            { userId := uid
              query := q
              generatedMongoQuery := "Conversation detected: no database query executed"
              queryType := "find"
              collections := ["n/a"]
              resultCount := 0
              wasSuccessful := true } } := by
  unfold processQueryGreeting
  rw [h]
  simp

/-- Witness for C8 (amended) at the concrete greeting `"hi"`. -/
theorem C8_greeting_amended_witness :
    isGreeting "hi" = true ∧
    processQueryGreeting "u1" "hi" "Hello! How can I help you today?" =
      some
        { data := Value.null
          message := "Hello! How can I help you today?"
          executedQueries := []
          memoryRecord :=
            { userId := "u1"
              query := "hi"
              generatedMongoQuery := "Conversation detected: no database query executed"
              queryType := "find"
              collections := ["n/a"]
              resultCount := 0
              wasSuccessful := true } } :=
  ⟨by decide, C8_greeting_amended "u1" "hi" "Hello! How can I help you today?" (by decide)⟩

/-- Counterexample to C8 as stated: for the greeting `"hi"` the recorded
memory entry's query kind is `"find"`, not `"conversation"` — the
`recordQuery` signature (`'find' | 'findOne' | 'count' | 'aggregate'`) cannot
even express a `conversation` kind. -/
theorem C8_counterexample :
    (processQueryGreeting "u1" "hi" "Hello!").map (fun r => r.memoryRecord.queryType) =
      some "find" ∧
    some ("find" : String) ≠ some "conversation" ∧
    isGreeting "hi" = true :=
  ⟨rfl, by decide, by decide⟩

/-! ### C9 — skill-level thresholds -/

/-- Invariant tying a memory state to the spec's threshold function: no
preferences document means no successful record yet, and an existing
document's skill level is exactly `stratify` of the success count. -/
def MemInv (st : MemoryState) : Prop :=
  match st.prefs with
  | none => st.successCount = 0
  | some p => p.skillLevel = stratify st.successCount

theorem promote_eq (n : Nat) (p : UserPrefs) (hskill : p.skillLevel = stratify n) :
    (if n + 1 > 50 && decide (p.skillLevel = SkillLevel.beginner) then
        { p with skillLevel := SkillLevel.intermediate }
      else if n + 1 > 150 && decide (p.skillLevel = SkillLevel.intermediate) then
        { p with skillLevel := SkillLevel.advanced }
      else p).skillLevel = stratify (n + 1) := by
  unfold stratify at hskill ⊢
  by_cases h1 : n + 1 ≤ 50
  · have hn : n ≤ 50 := by omega
    rw [if_pos hn] at hskill
    rw [if_pos h1]
    simp [hskill, show ¬(n + 1 > 50) by omega]
  · by_cases h2 : n + 1 ≤ 150
    · rw [if_neg h1, if_pos h2]
      by_cases h3 : n ≤ 50
      · rw [if_pos h3] at hskill
        simp [hskill, show n + 1 > 50 by omega]
      · have h4 : n ≤ 150 := by omega
        rw [if_neg h3, if_pos h4] at hskill
        simp [hskill, show ¬(n + 1 > 150) by omega]
    · rw [if_neg h1, if_neg h2]
      by_cases h3 : n ≤ 150
      · have h5 : ¬ n ≤ 50 := by omega
        rw [if_neg h5, if_pos h3] at hskill
        simp [hskill, show n + 1 > 150 by omega]
      · rw [if_neg (show ¬ n ≤ 50 by omega), if_neg h3] at hskill
        simp [hskill]

theorem recordQuery_inv (st : MemoryState) (pat : String) (b : Bool) (h : MemInv st) :
    MemInv (recordQuery st pat b) ∧
    (recordQuery st pat b).successCount = st.successCount + (if b then 1 else 0) := by
  cases hp : st.prefs with
  | none =>
      have hc : st.successCount = 0 := by simpa [MemInv, hp] using h
      constructor
      · cases b <;> simp [recordQuery, updateUserPreferences, MemInv, hp, hc, stratify]
      · simp [recordQuery, updateUserPreferences, hp]
  | some p =>
      have hskill : p.skillLevel = stratify st.successCount := by
        simpa [MemInv, hp] using h
      cases b with
      | false =>
          constructor
          · unfold recordQuery updateUserPreferences
            by_cases hm : pat ∈ p.commonMistakes <;>
              simp [MemInv, hp, hm, hskill]
          · unfold recordQuery updateUserPreferences
            by_cases hm : pat ∈ p.commonMistakes <;> simp [hp, hm]
      | true =>
          constructor
          · unfold recordQuery updateUserPreferences
            simp only [hp, if_true]
            simp only [MemInv]
            exact promote_eq st.successCount p hskill
          · simp [recordQuery, updateUserPreferences, hp]

theorem runRecords_inv (evs : List (String × Bool)) :
    ∀ st : MemoryState, MemInv st →
      MemInv (runRecords st evs) ∧
      (runRecords st evs).successCount = st.successCount + evs.countP (fun e => e.2) := by
  induction evs with
  | nil =>
      intro st h
      exact ⟨by simpa [runRecords] using h, by simp [runRecords]⟩
  | cons e evs ih =>
      intro st h
      have h1 := recordQuery_inv st e.1 e.2 h
      have h2 := ih (recordQuery st e.1 e.2) h1.1
      constructor
      · simpa [runRecords] using h2.1
      · have : runRecords st (e :: evs) = runRecords (recordQuery st e.1 e.2) evs := by
          simp [runRecords]
        rw [this, h2.2, h1.2]
        cases hb : e.2 <;> simp [List.countP_cons, hb] <;> omega

theorem skillOf_of_inv (st : MemoryState) (h : MemInv st) :
    skillOf st = stratify st.successCount := by
  cases hp : st.prefs with
  | none =>
      have hc : st.successCount = 0 := by simpa [MemInv, hp] using h
      simp [skillOf, hp, hc, stratify]
  | some p =>
      have := by simpa [MemInv, hp] using h
      simp [skillOf, hp, this]

/-- C9: across any sequence of recorded turns, a user's skill level is
exactly the threshold function of the number of successful records —
`beginner` through 50 successes, `intermediate` from the 51st through the
150th, `advanced` from the 151st — so promotions happen exactly at the 51st
and 151st successful record; and recording an unsuccessful turn never
changes the skill level. -/
theorem C9_skill_thresholds :
    (∀ evs : List (String × Bool),
      skillOf (runRecords initialMemory evs) = stratify (evs.countP (fun e => e.2))) ∧
    (∀ (st : MemoryState) (pat : String),
      skillOf (recordQuery st pat false) = skillOf st) := by
  constructor
  · intro evs
    have h0 : MemInv initialMemory := by simp [MemInv, initialMemory]
    have h := runRecords_inv evs initialMemory h0
    rw [skillOf_of_inv _ h.1, h.2]
    simp [initialMemory]
  · intro st pat
    cases hp : st.prefs with
    | none => simp [recordQuery, updateUserPreferences, skillOf, hp]
    | some p =>
        unfold recordQuery updateUserPreferences
        by_cases hm : pat ∈ p.commonMistakes <;> simp [skillOf, hp, hm]

/-! ### C10 — `insertOne` strips the top-level password field -/

/-- An `insertOne` query object carrying the given document (no filter). -/
def mkInsertOne (coll : String) (kvs : List (String × Value)) : Query :=
  { operation := "insertOne", collection := coll, document := some (Value.obj kvs) }

theorem stripPassword_obj (kvs : List (String × Value)) :
    stripPassword (Value.obj kvs) =
      Value.obj (kvs.filter (fun p => !(p.1 == "password"))) := by
  show (if (kvs.any fun p => p.1 == "password") = true then
      Value.obj (kvs.filter (fun p => !(p.1 == "password"))) else Value.obj kvs) =
    Value.obj (kvs.filter (fun p => !(p.1 == "password")))
  by_cases h : (kvs.any fun p => p.1 == "password") = true
  · rw [if_pos h]
  · rw [if_neg h]
    have hall : ∀ p ∈ kvs, (!(p.1 == "password")) = true := by
      intro p hp
      have h2 : (p.1 == "password") = false := by
        rcases Bool.eq_false_or_eq_true (p.1 == "password") with hb | hb
        · exact absurd (List.any_eq_true.mpr ⟨p, hp, hb⟩) h
        · exact hb
      simp [h2]
    rw [List.filter_eq_self.mpr hall]

/-- C10: every document `insertOne` deletes a top-level `password` field
before insertion — the document handed to the database never carries a
top-level `password` key — and every other field is inserted unchanged. -/
theorem C10_insert_password_stripped (D : Nat) (conn : ConnType) (env : DbEnv)
    (coll : String) (kvs : List (String × Value)) :
    executeQuery D (mkInsertOne coll kvs) conn env =
      ([DbEffect.insertQ coll (Value.obj (kvs.filter (fun p => !(p.1 == "password"))))],
        Except.ok (Value.obj (kvs.filter (fun p => !(p.1 == "password"))))) ∧
    (∀ p ∈ kvs.filter (fun p => !(p.1 == "password")), p.1 ≠ "password") ∧
    (∀ p ∈ kvs, p.1 ≠ "password" → p ∈ kvs.filter (fun p => !(p.1 == "password"))) := by
  refine ⟨?_, ?_, ?_⟩
  · unfold executeQuery executeQueryCore mkInsertOne
    simp [containsDangerousMongo, cdmEntries, stripPassword_obj, isObjectTypeof,
      jsTruthy, Except.mapError]
  · intro p hp
    obtain ⟨_, h2⟩ := List.mem_filter.mp hp
    intro he
    rw [he] at h2
    simp at h2
  · intro p hp hne
    exact List.mem_filter.mpr ⟨hp, by simp [hne]⟩

/-- Witness for C10 at a concrete document `{password: "secret", name:
"bob"}`: the inserted document is `{name: "bob"}`, and the `name` field
survives the strip. -/
theorem C10_insert_password_stripped_witness :
    executeQuery 1000 (mkInsertOne "users"
        [("password", Value.str "secret"), ("name", Value.str "bob")])
      ConnType.mongodb ⟨[], []⟩ =
      ([DbEffect.insertQ "users" (Value.obj ([("password", Value.str "secret"),
          ("name", Value.str "bob")].filter (fun p => !(p.1 == "password"))))],
        Except.ok (Value.obj ([("password", Value.str "secret"),
          ("name", Value.str "bob")].filter (fun p => !(p.1 == "password"))))) ∧
    ("name", Value.str "bob") ∈ ([("password", Value.str "secret"),
        ("name", Value.str "bob")].filter (fun p : String × Value => !(p.1 == "password"))) :=
  ⟨(C10_insert_password_stripped 1000 ConnType.mongodb ⟨[], []⟩ "users"
      [("password", Value.str "secret"), ("name", Value.str "bob")]).1,
   (C10_insert_password_stripped 1000 ConnType.mongodb ⟨[], []⟩ "users"
      [("password", Value.str "secret"), ("name", Value.str "bob")]).2.2
      ("name", Value.str "bob") (List.Mem.tail _ (List.Mem.head _)) (by decide)⟩
